import Mathlib

/-!
Verification of the credit-ledger / job-pipeline core of the image-processor
service. The definitions below are a shallow embedding of the TypeScript
source: `src/models/credits.ts` (durable ledger), the fallback credit store
and the two in-memory job stores concatenated in `src/models/history.ts`,
`src/controllers/creditController.ts` (credit check) and
`src/controllers/jobsController.ts` (job admission, executor, listing).
Timestamps (`Date`, `CURRENT_TIMESTAMP`) are modelled as `Nat` clock values
passed explicitly; database reachability is modelled by explicit booleans
(a durable call with its flag set to `false` behaves as a thrown
`StoreUnavailable`-style exception); `withTransaction` rollback is modelled
by `Except` (an error result leaves the caller's state untouched).
-/

namespace ImageProc

/-- Account roles, `UserRole = "admin" | "user"` in `types/index.ts`. -/
inductive Role where
  | admin
  | user
deriving DecidableEq, Repr

/-- Job lifecycle states, `JobStatus` in `types/index.ts`. -/
inductive JobStatus where
  | pending
  | processing
  | completed
  | failed
deriving DecidableEq, Repr

/-- Transaction kinds of `credit_transactions.transaction_type`
(`'deduct' | 'refund' | 'admin_grant'`). -/
inductive TxType where
  | deduct
  | refund
  | adminGrant
deriving DecidableEq, Repr

/-- One row of the durable `user_credits` table. -/
structure Account where
  username : String
  credits : Int
  lastUpdated : Nat
deriving DecidableEq, Repr

/-- One row of the append-only `credit_transactions` table. -/
structure Tx where
  username : String
  jobId : Option Nat
  creditsUsed : Int
  txType : TxType
  description : String
deriving DecidableEq, Repr

/-- One row of the append-only `processing_history` table
(cpu/memory columns carry simulated values and are kept as opaque data). -/
structure HistoryRow where
  jobId : Nat
  user : String
  inputFileId : String
  outputFileId : Option String
  processingTimeMs : Option Int
  success : Bool
  errorMessage : Option String
deriving DecidableEq, Repr

/-- One row of `system_stats` (`metric_name`, `metric_value DECIMAL`,
`unit`, `recorded_at`); `DECIMAL(10,2)` rounding is abstracted to exact
rationals. -/
structure StatRow where
  name : String
  value : Rat
  unit : String
  recordedAt : Nat
deriving DecidableEq, Repr

/-- The durable store: `user_credits`, `credit_transactions`,
`processing_history` and `system_stats`. -/
structure DBState where
  accounts : List Account
  transactions : List Tx
  history : List HistoryRow
  stats : List StatRow
deriving DecidableEq, Repr

/-- Embedding of `getUserCredits` (`credits.ts`): `SELECT ... FROM
user_credits WHERE username = $1`, `null` when no row matches. -/
def getUserCredits (db : DBState) (username : String) : Option Account :=
  db.accounts.find? (fun a => a.username == username)

/-- Effect of `UPDATE user_credits SET credits = f(credits), last_updated =
now WHERE username = $2`: every matching row is adjusted, a missing row is
silently no row updated. -/
def adjustCredits (accounts : List Account) (username : String)
    (f : Int → Int) (now : Nat) : List Account :=
  accounts.map (fun a =>
    if a.username == username then
      { a with credits := f a.credits, lastUpdated := now }
    else a)

/-- Embedding of `deductCredits` (`credits.ts` lines 96-133): inside one
transaction, select the row `FOR UPDATE`, throw `"User not found"` when
absent, throw `"Insufficient credits"` when `credits < creditsToDeduct`,
otherwise decrement the balance and append a `deduct` transaction. The
`Except.error` result models the thrown error after `ROLLBACK`: the caller
keeps the unmodified state. -/
def deductCredits (db : DBState) (username : String) (jobId : Nat)
    (creditsToDeduct : Int) (now : Nat) : Except String DBState :=
  match getUserCredits db username with
  | none => .error "User not found"
  | some acct =>
    if acct.credits < creditsToDeduct then
      .error "Insufficient credits"
    else
      .ok { db with
        accounts := adjustCredits db.accounts username
          (fun c => c - creditsToDeduct) now,
        transactions := db.transactions ++
          [⟨username, some jobId, creditsToDeduct, .deduct,
            "Image processing job"⟩] }

/-- Embedding of `refundCredits` (`credits.ts` lines 138-156): add the
credits back (`UPDATE`, a no-op on a missing row) and append a `refund`
transaction; never throws on its own. -/
def refundCredits (db : DBState) (username : String) (jobId : Nat)
    (creditsToRefund : Int) (now : Nat) : DBState :=
  { db with
    accounts := adjustCredits db.accounts username
      (fun c => c + creditsToRefund) now,
    transactions := db.transactions ++
      [⟨username, some jobId, creditsToRefund, .refund,
        "Job failed - credit refund"⟩] }

/-- Input record of `recordProcessingHistory` (`history.ts`). -/
structure HistoryData where
  jobId : Nat
  user : String
  inputFileId : String
  outputFileId : Option String
  processingTimeMs : Option Int
  success : Bool
  errorMessage : Option String
deriving DecidableEq, Repr

/-- Effect of `INSERT INTO system_stats ... ON CONFLICT (metric_name) DO
UPDATE SET metric_value = f(metric_value), recorded_at = now`: update the
row when the metric exists, else insert it with the given initial value. -/
def upsertStat (stats : List StatRow) (name : String) (init : Rat)
    (f : Rat → Rat) (unit : String) (now : Nat) : List StatRow :=
  if stats.any (fun s => s.name == name) then
    stats.map (fun s =>
      if s.name == name then { s with value := f s.value, recordedAt := now }
      else s)
  else
    stats ++ [⟨name, init, unit, now⟩]

/-- Embedding of `recordProcessingHistory` (`history.ts` lines 10-73): one
transaction that appends the history row and, only when `data.success`,
increments `images_processed_today` and, only when `data.processingTimeMs`
is truthy (present and nonzero in JS), folds the duration into
`avg_processing_time` as `(old + t) / 2`. -/
def recordProcessingHistory (db : DBState) (data : HistoryData)
    (now : Nat) : DBState :=
  let db1 := { db with history := db.history ++
    [⟨data.jobId, data.user, data.inputFileId, data.outputFileId,
      data.processingTimeMs, data.success, data.errorMessage⟩] }
  if data.success then
    let stats2 :=
      upsertStat db1.stats "images_processed_today" 1 (fun v => v + 1)
        "count" now
    let db2 := { db1 with stats := stats2 }
    match data.processingTimeMs with
    | some t =>
      if t ≠ 0 then
        let stats3 :=
          upsertStat db2.stats "avg_processing_time" (t : Rat)
            (fun v => (v + (t : Rat)) / 2) "ms" now
        { db2 with stats := stats3 }
      else db2
    | none => db2
  else db1

/-- One entry of the in-process fallback credit map
(`creditsFallback` section of `history.ts`). -/
structure FbEntry where
  credits : Int
  lastUpdated : Nat
  role : Role
deriving DecidableEq, Repr

/-- The fallback credit store: the global `inMemoryCredits` map, modelled
as an association list in insertion order. -/
abbrev FbMap := List (String × FbEntry)

/-- Embedding of `getDefaultCredits`: 999999 for the admin role, 10
otherwise. -/
def getDefaultCredits (role : Role) : Int :=
  if role = .admin then 999999 else 10

/-- Embedding of `initializeDefaultUsers`: when the map is empty, seed the
`admin` and `user1` entries; otherwise leave it alone. -/
def seedDefaultUsers (m : FbMap) (now : Nat) : FbMap :=
  if m.isEmpty then
    [("admin", ⟨999999, now, .admin⟩), ("user1", ⟨10, now, .user⟩)]
  else m

/-- Embedding of `ensureUser`: create the entry with the role-default
balance when the username is absent. -/
def ensureUser (m : FbMap) (username : String) (role : Role)
    (now : Nat) : FbMap :=
  if (m.lookup username).isSome then m
  else m ++ [(username, ⟨getDefaultCredits role, now, role⟩)]

/-- Embedding of `getCreditsFallback`: seed defaults, ensure the user, and
return its credits and timestamp together with the updated map. -/
def getCreditsFallback (m : FbMap) (username : String) (role : Role)
    (now : Nat) : (Int × Nat) × FbMap :=
  let m1 := ensureUser (seedDefaultUsers m now) username role now
  match m1.lookup username with
  | some e => ((e.credits, e.lastUpdated), m1)
  | none => ((0, now), m1)

/-- Embedding of `deductCreditsFallback`: seed, ensure the user, always
succeed for a stored admin entry without decrementing, reject with `false`
when `credits < amount`, otherwise decrement. The `none` branch of the
lookup is unreachable because `ensureUser` just inserted the entry. -/
def deductCreditsFallback (m : FbMap) (username : String) (role : Role)
    (amount : Int) (now : Nat) : Bool × FbMap :=
  let m1 := ensureUser (seedDefaultUsers m now) username role now
  match m1.lookup username with
  | none => (false, m1)
  | some e =>
    if e.role = .admin then (true, m1)
    else if e.credits < amount then (false, m1)
    else
      let debited : FbEntry → FbEntry := fun e2 =>
        { e2 with credits := e2.credits - amount, lastUpdated := now }
      (true, m1.map (fun p => if p.1 == username then (p.1, debited p.2) else p))

/-- Embedding of `refundCreditsFallback`: seed, ensure, skip stored admin
entries, otherwise increment the balance. -/
def refundCreditsFallback (m : FbMap) (username : String) (role : Role)
    (amount : Int) (now : Nat) : FbMap :=
  let m1 := ensureUser (seedDefaultUsers m now) username role now
  match m1.lookup username with
  | none => m1
  | some e =>
    if e.role = .admin then m1
    else
      let refunded : FbEntry → FbEntry := fun e2 =>
        { e2 with credits := e2.credits + amount, lastUpdated := now }
      m1.map (fun p => if p.1 == username then (p.1, refunded p.2) else p)

/-- Embedding of `hasEnoughCreditsFallback` (`history.ts` lines 492-504):
seed defaults, then `false` for an unknown user, `true` for a stored admin
entry, and a balance comparison otherwise. It takes no role argument and
does not create missing users. -/
def hasEnoughCreditsFallback (m : FbMap) (username : String)
    (requiredAmount : Int) (now : Nat) : Bool × FbMap :=
  let m1 := seedDefaultUsers m now
  match m1.lookup username with
  | none => (false, m1)
  | some e => (e.role = .admin || e.credits ≥ requiredAmount, m1)

/-- Embedding of `checkUserCredits` (`creditController.ts` lines 156-176):
try the durable store first (`dbUp = true` and a row found): admin role or
balance comparison; when the durable row is missing or the durable call
throws (`dbUp = false`), fall through to `hasEnoughCreditsFallback`. -/
def checkUserCredits (dbUp : Bool) (db : DBState) (m : FbMap)
    (username : String) (role : Role) (requiredAmount : Int)
    (now : Nat) : Bool × FbMap :=
  if dbUp then
    match getUserCredits db username with
    | some acct => (role = .admin || acct.credits ≥ requiredAmount, m)
    | none => hasEnoughCreditsFallback m username requiredAmount now
  else hasEnoughCreditsFallback m username requiredAmount now

/-- Result payload stored on a job (`ProcessingResult` in
`types/index.ts`); unused metadata fields are omitted. -/
structure ProcessingResult where
  outputFile : Option String := none
  outputPath : Option String := none
  processedAt : Option Nat := none
  s3Key : Option String := none
  error : Option String := none
deriving DecidableEq, Repr

/-- An authenticated request principal (`AuthenticatedUser`). -/
structure AuthUser where
  username : String
  role : Role
deriving DecidableEq, Repr

/-- A job record (`Job` in `types/index.ts`); `params` is kept opaque as
the requested output format, the only field the executor reads. -/
structure Job where
  id : Nat
  user : String
  role : Role
  file_id : String
  params : Option String
  status : JobStatus
  result : Option ProcessingResult
  created_at : Nat
  updated_at : Nat
deriving DecidableEq, Repr

/-- The in-memory job store of `models/jobs.ts`: the `jobs` map in
insertion order plus the `nextJobId` counter. -/
structure JobsStore where
  jobs : List (Nat × Job)
  nextJobId : Nat
deriving DecidableEq, Repr

/-- Embedding of `createJob` in `models/jobs.ts` (imported by the
controller as `createJobModel`): allocate `nextJobId`, store a `pending`
job with `result = null`, return it. -/
def createJobModel (s : JobsStore) (user : AuthUser) (fileId : String)
    (params : Option String) (now : Nat) : Job × JobsStore :=
  let job : Job :=
    { id := s.nextJobId, user := user.username, role := user.role,
      file_id := fileId, params := params, status := .pending,
      result := none, created_at := now, updated_at := now }
  (job, { jobs := s.jobs ++ [(job.id, job)], nextJobId := s.nextJobId + 1 })

/-- Embedding of `findJobById` in `models/jobs.ts`. -/
def findJobById (s : JobsStore) (jobId : Nat) : Option Job :=
  s.jobs.lookup jobId

/-- Embedding of `updateJobStatus` in `models/jobs.ts` (`history.ts`
concatenation lines 291-310): `false` for a missing job; otherwise set the
status and `updated_at` unconditionally and overwrite `result` exactly when
one is passed. -/
def updateJobStatus (s : JobsStore) (jobId : Nat) (status : JobStatus)
    (result : Option ProcessingResult) (now : Nat) : Bool × JobsStore :=
  match s.jobs.lookup jobId with
  | none => (false, s)
  | some _ =>
    let upd : Job → Job := fun j =>
      { j with
        status := status
        updated_at := now
        result := if result.isSome then result else j.result }
    (true, { s with jobs := s.jobs.map (fun p =>
      if p.1 == jobId then (p.1, upd p.2) else p) })

/-- The alternate fallback job store of the `jobsById` map (`history.ts`
concatenation lines 186-241). -/
abbrev AltJobsMap := List (Nat × Job)

/-- Embedding of the alternate `updateJobStatus` over `jobsById`
(`history.ts` concatenation lines 222-237): `null` for a missing job,
otherwise replace the record with the new status, `result ?? existing`
and a fresh `updated_at`. -/
def updateJobStatusAlt (m : AltJobsMap) (jobId : Nat) (status : JobStatus)
    (result : Option ProcessingResult) (now : Nat) :
    Option Job × AltJobsMap :=
  match m.lookup jobId with
  | none => (none, m)
  | some existing =>
    let updated : Job :=
      { existing with
        status := status
        result := if result.isSome then result else existing.result
        updated_at := now }
    (some updated, m.map (fun p => if p.1 == jobId then (p.1, updated) else p))

/-- Stable insertion used to model `Array.prototype.sort`: the new element
goes before the first element that the comparator places strictly after it.
For a consistent comparator this yields the unique stable sorted order,
which is what ECMAScript guarantees. -/
def jsInsert (c : Job → Job → Int) (x : Job) : List Job → List Job
  | [] => [x]
  | y :: ys => if c x y < 0 then x :: y :: ys else y :: jsInsert c x ys

/-- Stable sort by a JS comparator, processing elements left to right. -/
def jsSortBy (c : Job → Job → Int) (l : List Job) : List Job :=
  l.foldl (fun acc x => jsInsert c x acc) []

/-- Embedding of `listJobsByUser` in `models/jobs.ts`: admin sees all jobs,
a standard user only its own, sorted newest-first with the consistent
numeric comparator `b.created_at - a.created_at` (stable on ties). -/
def listJobsByUser (s : JobsStore) (user : AuthUser) : List Job :=
  let userJobs := (s.jobs.map Prod.snd).filter
    (fun j => user.role = .admin || j.user == user.username)
  jsSortBy (fun a b => (b.created_at : Int) - (a.created_at : Int)) userJobs

/-- The comparator built by the `listJobs` controller
(`jobsController.ts` lines 389-393): `(aVal > bVal ? 1 : -1) * dir` over
the sort field; it never returns 0. -/
def jsCompareBy (key : Job → Nat) (dir : Int) (a b : Job) : Int :=
  (if key a > key b then 1 else -1) * dir

/-- Embedding of the `listJobs` controller (`jobsController.ts` lines
367-416): list the user's jobs, filter by status when given, sort with the
JS comparator over the requested field and direction, then slice the page
(`slice((p-1)*ps, (p-1)*ps + ps)`). -/
def listJobsHandler (s : JobsStore) (user : AuthUser)
    (status : Option JobStatus) (page pageSize : Nat)
    (key : Job → Nat) (dir : Int) : List Job :=
  let all := listJobsByUser s user
  let filtered := match status with
    | some st => all.filter (fun j => j.status == st)
    | none => all
  let sorted := jsSortBy (jsCompareBy key dir) filtered
  (sorted.drop ((page - 1) * pageSize)).take pageSize

/-- Combined mutable state of the service: durable store, fallback credit
map and the in-memory job store. -/
structure SysState where
  db : DBState
  fb : FbMap
  jobs : JobsStore
deriving DecidableEq, Repr

/-- Embedding of `deductCreditsSafely` (`jobsController.ts` lines 43-60):
try the durable `deductCredits`; on any thrown error (store unreachable,
user missing, or insufficient balance) fall back to
`deductCreditsFallback`, whose boolean result and any failure are
swallowed. -/
def deductCreditsSafely (db : DBState) (fb : FbMap) (dbUp : Bool)
    (username : String) (jobId : Nat) (credits : Int) (role : Role)
    (now : Nat) : DBState × FbMap :=
  if dbUp then
    match deductCredits db username jobId credits now with
    | .ok db' => (db', fb)
    | .error _ => (db, (deductCreditsFallback fb username role credits now).2)
  else (db, (deductCreditsFallback fb username role credits now).2)

/-- Outcome of the `createJob` controller, with the HTTP status it sends. -/
inductive CreateJobResponse where
  | insufficient (currentCredits : Int)
  | ok (job : Job)
deriving DecidableEq, Repr

/-- HTTP status code attached to each `createJob` response
(`res.status(402)` for the credit rejection, default 200 otherwise). -/
def CreateJobResponse.statusCode : CreateJobResponse → Nat
  | .insufficient _ => 402
  | .ok _ => 200

/-- Embedding of the `createJob` controller (`jobsController.ts` lines
63-142) for an authenticated request with a `fileId`: non-admin requests
run the admission check (`checkUserCredits`) and are rejected with 402 when
it fails (reading the current balance for the error payload); otherwise the
job is created first and only then is the debit attempted through
`deductCreditsSafely`; `processJobAsync` is started separately
(fire-and-forget) and is modelled as its own step. Every durable call is a
separate await that can throw independently, so the credit check (and the
balance read of the 402 payload) and the later debit carry their own
availability flags `checkDbUp` and `deductDbUp`. -/
def createJobHandler (st : SysState) (user : AuthUser) (fileId : String)
    (params : Option String) (checkDbUp deductDbUp : Bool) (now : Nat) :
    CreateJobResponse × SysState :=
  if user.role ≠ .admin then
    let checked :=
      checkUserCredits checkDbUp st.db st.fb user.username user.role 1 now
    if checked.1 = false then
      let payload :=
        if checkDbUp then
          (match getUserCredits st.db user.username with
            | some acct => acct.credits
            | none => 0, checked.2)
        else
          let g := getCreditsFallback checked.2 user.username user.role now
          (g.1.1, g.2)
      (.insufficient payload.1, { st with fb := payload.2 })
    else
      let created := createJobModel st.jobs user fileId params now
      let after := deductCreditsSafely st.db checked.2 deductDbUp
        user.username created.1.id 1 user.role now
      (.ok created.1, { db := after.1, fb := after.2, jobs := created.2 })
  else
    let created := createJobModel st.jobs user fileId params now
    (.ok created.1, { st with jobs := created.2 })

/-- Embedding of `processJobAsync` (`jobsController.ts` lines 274-364):
load the job (silently return when absent), mark it `processing`, run the
transformation (its outcome is the `transformOk`/`transformErr` input),
mark `completed` with the output payload or `failed` with the error; in the
`finally` block refund one credit when the job did not succeed and
`job.user !== "admin"` (durable refund, falling back to
`refundCreditsFallback` with role `user` when the durable call throws), and
finally append the processing-history record when the durable store is
reachable (its failure is swallowed). The outer `outputFileName` variable
is shadowed by the `const` inside `try`, so the history row's
`outputFileId` is always `undefined`. -/
def processJobAsync (st : SysState) (jobId : Nat) (transformOk : Bool)
    (transformErr : String) (outputFile : String) (refundDbUp : Bool)
    (recordDbUp : Bool) (processingTime : Int) (now : Nat) : SysState :=
  match findJobById st.jobs jobId with
  | none => st
  | some job =>
    let jobs1 := (updateJobStatus st.jobs jobId .processing none now).2
    let step :=
      if transformOk then
        (true, none,
          (updateJobStatus jobs1 jobId .completed
            (some { outputFile := some outputFile,
                    outputPath := some outputFile,
                    processedAt := some now }) now).2)
      else
        ((false : Bool), some transformErr,
          (updateJobStatus jobs1 jobId .failed
            (some { error := some transformErr }) now).2)
    let success := step.1
    let errorMessage := step.2.1
    let jobs2 := step.2.2
    let compensated :=
      if success = false ∧ job.user ≠ "admin" then
        if refundDbUp then
          (refundCredits st.db job.user job.id 1 now, st.fb)
        else
          (st.db, refundCreditsFallback st.fb job.user .user 1 now)
      else (st.db, st.fb)
    let db2 :=
      if recordDbUp then
        recordProcessingHistory compensated.1
          { jobId := job.id, user := job.user, inputFileId := job.file_id,
            outputFileId := none, processingTimeMs := some processingTime,
            success := success, errorMessage := errorMessage } now
      else compensated.1
    { db := db2, fb := compensated.2, jobs := jobs2 }

/-- One ledger operation of fixed amount against one account, used to state
the spec's algebraic balance law (§8). -/
inductive LedgerOp where
  | debit (jobId : Nat)
  | refund (jobId : Nat)
deriving DecidableEq, Repr

/-- Number of debits in a ledger-operation sequence. -/
def countDebits (ops : List LedgerOp) : Nat :=
  ops.countP (fun o => match o with | .debit _ => true | .refund _ => false)

/-- Number of refunds in a ledger-operation sequence. -/
def countRefunds (ops : List LedgerOp) : Nat :=
  ops.countP (fun o => match o with | .debit _ => false | .refund _ => true)

/-- Run a sequence of durable ledger operations of amount `a` for one user:
each debit goes through `deductCredits` (stopping with its error when it
rejects), each refund through `refundCredits`. -/
def applyOps (username : String) (a : Int) (now : Nat) :
    DBState → List LedgerOp → Except String DBState
  | db, [] => .ok db
  | db, .debit jid :: ops =>
    match deductCredits db username jid a now with
    | .ok db' => applyOps username a now db' ops
    | .error e => .error e
  | db, .refund jid :: ops =>
    applyOps username a now (refundCredits db username jid a now) ops

theorem find_adjustCredits (l : List Account) (u : String) (f : Int → Int)
    (now : Nat) :
    (adjustCredits l u f now).find? (fun a => a.username == u) =
      (l.find? (fun a => a.username == u)).map
        (fun a => { a with credits := f a.credits, lastUpdated := now }) := by
  induction l with
  | nil => rfl
  | cons x t ih =>
    unfold adjustCredits at ih ⊢
    rw [List.map_cons]
    by_cases hc : (x.username == u) = true
    · rw [@List.find?_cons_of_pos Account (fun a => a.username == u) _ _
        (by simp [hc])]
      rw [@List.find?_cons_of_pos Account (fun a => a.username == u) x t hc]
      simp [hc]
    · rw [@List.find?_cons_of_neg Account (fun a => a.username == u) _ _
        (by simp [hc])]
      rw [@List.find?_cons_of_neg Account (fun a => a.username == u) x t hc]
      exact ih

theorem getUserCredits_deduct_ok {db db' : DBState} {u : String}
    {acct : Account} {jid : Nat} {a : Int} {now : Nat}
    (hfind : getUserCredits db u = some acct)
    (hok : deductCredits db u jid a now = .ok db') :
    getUserCredits db' u =
      some { acct with credits := acct.credits - a, lastUpdated := now } := by
  simp only [deductCredits, hfind] at hok
  by_cases hlt : acct.credits < a
  · rw [if_pos hlt] at hok
    exact absurd hok (by simp)
  · rw [if_neg hlt] at hok
    injection hok with h'
    subst h'
    unfold getUserCredits at hfind ⊢
    rw [find_adjustCredits, hfind]
    rfl

theorem getUserCredits_refund {db : DBState} {u : String} {acct : Account}
    {jid : Nat} {a : Int} {now : Nat}
    (hfind : getUserCredits db u = some acct) :
    getUserCredits (refundCredits db u jid a now) u =
      some { acct with credits := acct.credits + a, lastUpdated := now } := by
  unfold getUserCredits at hfind ⊢
  simp only [refundCredits]
  rw [find_adjustCredits, hfind]
  rfl

theorem applyOps_balance {u : String} {a : Int} {now : Nat} :
    ∀ (ops : List LedgerOp) (db db' : DBState) (acct : Account),
    getUserCredits db u = some acct →
    applyOps u a now db ops = .ok db' →
    ∃ acct', getUserCredits db' u = some acct' ∧
      acct'.credits =
        acct.credits - a * countDebits ops + a * countRefunds ops := by
  intro ops
  induction ops with
  | nil =>
    intro db db' acct hfind hrun
    cases hrun
    refine ⟨acct, hfind, by simp [countDebits, countRefunds]⟩
  | cons op ops ih =>
    intro db db' acct hfind hrun
    cases op with
    | debit jid =>
      unfold applyOps at hrun
      split at hrun
      case _ db1 heq =>
        obtain ⟨acct', hfind', hbal⟩ := ih _ db' _
          (getUserCredits_deduct_ok hfind heq) hrun
        refine ⟨acct', hfind', ?_⟩
        rw [hbal]
        simp only [countDebits, countRefunds, List.countP_cons]
        push_cast
        ring
      case _ e heq => exact absurd hrun (by simp)
    | refund jid =>
      unfold applyOps at hrun
      obtain ⟨acct', hfind', hbal⟩ := ih _ db' _
        (getUserCredits_refund hfind) hrun
      refine ⟨acct', hfind', ?_⟩
      rw [hbal]
      simp only [countDebits, countRefunds, List.countP_cons]
      push_cast
      ring

theorem lookup_append_of_none {α β : Type} [BEq α] [LawfulBEq α]
    {m : List (α × β)} {u : α} (h : m.lookup u = none) (e : β) :
    (m ++ [(u, e)]).lookup u = some e := by
  induction m with
  | nil => simp [List.lookup]
  | cons p t ih =>
    rw [List.cons_append]
    obtain ⟨k, v⟩ := p
    rw [List.lookup_cons] at h ⊢
    by_cases hk : (u == k) = true
    · simp [hk] at h
    · rw [Bool.eq_false_iff.mpr hk] at h ⊢
      exact ih h

theorem lookup_map_update {α β : Type} [BEq α] [LawfulBEq α]
    {m : List (α × β)} {u : α} {e : β}
    (h : m.lookup u = some e) (g : β → β) :
    (m.map (fun p => if p.1 == u then (p.1, g p.2) else p)).lookup u =
      some (g e) := by
  induction m with
  | nil => simp [List.lookup] at h
  | cons p t ih =>
    obtain ⟨k, v⟩ := p
    rw [List.lookup_cons] at h
    rw [List.map_cons]
    by_cases hk : u = k
    · subst hk
      rw [show (u == u) = true from beq_self_eq_true u] at h
      injection h with hv
      subst hv
      simp [List.lookup_cons]
    · have h1 : (u == k) = false := beq_eq_false_iff_ne.mpr hk
      have h2 : (k == u) = false := beq_eq_false_iff_ne.mpr (Ne.symm hk)
      rw [h1] at h
      rw [if_neg (by simp [h2])]
      rw [List.lookup_cons, h1]
      exact ih h

/-- C1: for a standard-role account, a debit of amount `a` against a
balance `b < a` is rejected before any mutation on both paths. On the
durable path `deductCredits` throws `"Insufficient credits"` (the
`Except.error` result carries no new state, matching the transactional
rollback: neither the balance nor the transaction log changes). On the
in-process fallback path `deductCreditsFallback` returns `false` with the
map exactly as it was. -/
theorem debit_insufficient_rejected_before_mutation
    (db : DBState) (u : String) (jid : Nat) (a : Int) (now : Nat)
    (acct : Account) (m : FbMap) (e : FbEntry)
    (hacct : getUserCredits db u = some acct)
    (hlt : acct.credits < a)
    (hent : m.lookup u = some e)
    (hrole : e.role = .user)
    (hltf : e.credits < a) :
    deductCredits db u jid a now = .error "Insufficient credits" ∧
    deductCreditsFallback m u .user a now = (false, m) := by
  constructor
  · simp only [deductCredits, hacct, if_pos hlt]
  · have hne : m.isEmpty = false := by
      cases m with
      | nil => rw [List.lookup_nil] at hent; exact absurd hent (by simp)
      | cons p t => rfl
    simp only [deductCreditsFallback, seedDefaultUsers, hne,
      Bool.false_eq_true, if_false, ensureUser, hent, Option.isSome_some,
      if_true, hrole]
    rw [if_neg (by simp), if_pos hltf]

/-- Witness for C1: a standard account holding 2 credits, debited 5 on
each path. -/
theorem debit_insufficient_rejected_before_mutation_witness :
    deductCredits ⟨[⟨"u", 2, 0⟩], [], [], []⟩ "u" 1 5 0 =
      .error "Insufficient credits" ∧
    deductCreditsFallback [("u", ⟨2, 0, .user⟩)] "u" .user 5 0 =
      (false, [("u", ⟨2, 0, .user⟩)]) :=
  debit_insufficient_rejected_before_mutation
    ⟨[⟨"u", 2, 0⟩], [], [], []⟩ "u" 1 5 0 ⟨"u", 2, 0⟩
    [("u", ⟨2, 0, .user⟩)] ⟨2, 0, .user⟩
    (by decide) (by decide) (by decide) rfl (by decide)

/-- Fallback credit map as seeded by `initializeDefaultUsers` at time 0. -/
def fbSeeded : FbMap :=
  [("admin", ⟨999999, 0, .admin⟩), ("user1", ⟨10, 0, .user⟩)]

/-- Scenario B run: standard user `u1` with durable balance 1 submits one
job (all durable calls reachable), the transformation fails, the executor
compensates. -/
def scenarioB_final : SysState :=
  processJobAsync
    (createJobHandler ⟨⟨[⟨"u1", 1, 0⟩], [], [], []⟩, fbSeeded, ⟨[], 1⟩⟩
      ⟨"u1", .user⟩ "f.jpg" none true true 1).2
    1 false "boom" "out.jpg" true true 5 2

/-- C4: in Scenario B (standard user, balance 1, one job whose
transformation fails) the final balance is 1 again, exactly one `deduct`
and exactly one `refund` transaction reference the job, and the job ends
`failed`; in general, a standard account holding a durable row satisfies
`balance = initial - a*N + a*M` after any successfully applied sequence of
`N` debits and `M` refunds of amount `a`. -/
theorem refund_restores_balance_and_ledger_algebra :
    ((getUserCredits scenarioB_final.db "u1").map Account.credits = some 1 ∧
     scenarioB_final.db.transactions.countP
        (fun t => t.jobId == some 1 && t.txType == TxType.deduct) = 1 ∧
     scenarioB_final.db.transactions.countP
        (fun t => t.jobId == some 1 && t.txType == TxType.refund) = 1 ∧
     (findJobById scenarioB_final.jobs 1).map Job.status =
       some JobStatus.failed) ∧
    (∀ (ops : List LedgerOp) (db db' : DBState) (acct : Account)
       (u : String) (a : Int) (now : Nat),
      getUserCredits db u = some acct →
      applyOps u a now db ops = .ok db' →
      ∃ acct', getUserCredits db' u = some acct' ∧
        acct'.credits =
          acct.credits - a * countDebits ops + a * countRefunds ops) := by
  constructor
  · exact ⟨by decide, by decide, by decide, by decide⟩
  · intro ops db db' acct u a now hfind hrun
    exact applyOps_balance ops db db' acct hfind hrun

/-- Witness for C4: one debit then one refund of amount 2 against a
balance of 5 lands back on 5. -/
theorem refund_restores_balance_and_ledger_algebra_witness :
    ∃ acct', getUserCredits
        ⟨[⟨"w", 5, 3⟩],
         [⟨"w", some 9, 2, .deduct, "Image processing job"⟩,
          ⟨"w", some 9, 2, .refund, "Job failed - credit refund"⟩],
         [], []⟩ "w" = some acct' ∧
      acct'.credits = 5 - 2 * countDebits [.debit 9, .refund 9]
        + 2 * countRefunds [.debit 9, .refund 9] :=
  refund_restores_balance_and_ledger_algebra.2
    [.debit 9, .refund 9] ⟨[⟨"w", 5, 0⟩], [], [], []⟩
    ⟨[⟨"w", 5, 3⟩],
     [⟨"w", some 9, 2, .deduct, "Image processing job"⟩,
      ⟨"w", some 9, 2, .refund, "Job failed - credit refund"⟩],
     [], []⟩
    ⟨"w", 5, 0⟩ "w" 2 3 (by decide) rfl

/-- C7: a standard-role user whose durable balance is 0 is rejected at
admission with the insufficient-credits response (HTTP 402) and the whole
system state is returned unchanged: no job record, no balance change, no
transaction appended, and execution is never started (the processing step
only runs for an `ok` response). -/
theorem zero_balance_rejected_402
    (st : SysState) (u : AuthUser) (fileId : String)
    (params : Option String) (acct : Account) (now : Nat)
    (hrole : u.role = .user)
    (hacct : getUserCredits st.db u.username = some acct)
    (hzero : acct.credits = 0) :
    createJobHandler st u fileId params true true now =
      (.insufficient 0, st) ∧
    CreateJobResponse.statusCode (.insufficient 0) = 402 := by
  constructor
  · simp only [createJobHandler, checkUserCredits, hacct, hrole, hzero]
    norm_num
    simp
  · rfl

/-- Witness for C7: user `u1` with a durable balance of 0. -/
theorem zero_balance_rejected_402_witness :
    createJobHandler ⟨⟨[⟨"u1", 0, 0⟩], [], [], []⟩, fbSeeded, ⟨[], 1⟩⟩
        ⟨"u1", .user⟩ "f.jpg" none true true 1 =
      (.insufficient 0,
        ⟨⟨[⟨"u1", 0, 0⟩], [], [], []⟩, fbSeeded, ⟨[], 1⟩⟩) ∧
    CreateJobResponse.statusCode (.insufficient 0) = 402 :=
  zero_balance_rejected_402
    ⟨⟨[⟨"u1", 0, 0⟩], [], [], []⟩, fbSeeded, ⟨[], 1⟩⟩
    ⟨"u1", .user⟩ "f.jpg" none ⟨"u1", 0, 0⟩ 1 rfl (by decide) rfl

/-- C10: a username absent from the fallback store (after the default
seeding) is created by the first touching operation with the role-default
balance, 999999 for the admin role and 10 otherwise, independently of the
durable store (none of these functions reads `DBState`): `getCreditsFallback`
returns exactly the default, `deductCreditsFallback` starts from it (a
standard debit of `a ≤ 10` leaves `10 - a`, an admin entry stays at 999999),
and `refundCreditsFallback` starts from it as well (`10 + a` for a standard
entry, 999999 untouched for an admin entry). -/
theorem fallback_first_touch_role_default
    (m : FbMap) (u : String) (a : Int) (now : Nat)
    (habs : (seedDefaultUsers m now).lookup u = none)
    (ha : a ≤ 10) :
    (getCreditsFallback m u .user now).1.1 = 10 ∧
    (getCreditsFallback m u .admin now).1.1 = 999999 ∧
    ((getCreditsFallback m u .user now).2.lookup u) =
      some ⟨10, now, .user⟩ ∧
    ((deductCreditsFallback m u .user a now).1 = true ∧
      (((deductCreditsFallback m u .user a now).2.lookup u).map
        FbEntry.credits) = some (10 - a)) ∧
    ((deductCreditsFallback m u .admin a now).1 = true ∧
      (((deductCreditsFallback m u .admin a now).2.lookup u).map
        FbEntry.credits) = some 999999) ∧
    (((refundCreditsFallback m u .user a now).lookup u).map
      FbEntry.credits) = some (10 + a) ∧
    (((refundCreditsFallback m u .admin a now).lookup u).map
      FbEntry.credits) = some 999999 := by
  have hens : ∀ role : Role, ensureUser (seedDefaultUsers m now) u role now
      = seedDefaultUsers m now ++
        [(u, ⟨getDefaultCredits role, now, role⟩)] := by
    intro role
    unfold ensureUser
    rw [habs]
    simp
  have hlook : ∀ role : Role,
      (seedDefaultUsers m now ++
        [(u, (⟨getDefaultCredits role, now, role⟩ : FbEntry))]).lookup u
        = some ⟨getDefaultCredits role, now, role⟩ :=
    fun _ => lookup_append_of_none habs _
  have hnl : ¬ ((⟨getDefaultCredits Role.user, now, Role.user⟩ :
      FbEntry).credits < a) := by
    simp only [getDefaultCredits]
    norm_num
    omega
  refine ⟨?_, ?_, ?_, ⟨?_, ?_⟩, ⟨?_, ?_⟩, ?_, ?_⟩
  · simp only [getCreditsFallback, hens Role.user, hlook Role.user]
    simp [getDefaultCredits]
  · simp only [getCreditsFallback, hens Role.admin, hlook Role.admin]
    simp [getDefaultCredits]
  · simp only [getCreditsFallback, hens Role.user, hlook Role.user]
    simp [getDefaultCredits]
  · simp only [deductCreditsFallback, hens Role.user, hlook Role.user]
    rw [if_neg (by simp), if_neg hnl]
  · simp only [deductCreditsFallback, hens Role.user, hlook Role.user]
    rw [if_neg (by simp), if_neg hnl]
    dsimp only
    rw [lookup_map_update (hlook Role.user)
      (fun e2 => ⟨e2.credits - a, now, e2.role⟩)]
    simp [getDefaultCredits]
  · simp only [deductCreditsFallback, hens Role.admin, hlook Role.admin]
    simp
  · simp only [deductCreditsFallback, hens Role.admin, hlook Role.admin]
    simp only [if_true, reduceIte]
    rw [hlook Role.admin]
    simp [getDefaultCredits]
  · simp only [refundCreditsFallback, hens Role.user, hlook Role.user]
    rw [if_neg (by simp)]
    rw [lookup_map_update (hlook Role.user)
      (fun e2 => ⟨e2.credits + a, now, e2.role⟩)]
    simp [getDefaultCredits]
  · simp only [refundCreditsFallback, hens Role.admin, hlook Role.admin]
    simp only [if_true, reduceIte]
    rw [hlook Role.admin]
    simp [getDefaultCredits]

/-- Witness for C10: username `bob` is absent from the seeded fallback map;
amount 4 is debited/refunded. -/
theorem fallback_first_touch_role_default_witness :
    (getCreditsFallback fbSeeded "bob" .user 7).1.1 = 10 ∧
    (getCreditsFallback fbSeeded "bob" .admin 7).1.1 = 999999 ∧
    ((getCreditsFallback fbSeeded "bob" .user 7).2.lookup "bob") =
      some ⟨10, 7, .user⟩ ∧
    ((deductCreditsFallback fbSeeded "bob" .user 4 7).1 = true ∧
      (((deductCreditsFallback fbSeeded "bob" .user 4 7).2.lookup "bob").map
        FbEntry.credits) = some (10 - 4)) ∧
    ((deductCreditsFallback fbSeeded "bob" .admin 4 7).1 = true ∧
      (((deductCreditsFallback fbSeeded "bob" .admin 4 7).2.lookup "bob").map
        FbEntry.credits) = some 999999) ∧
    (((refundCreditsFallback fbSeeded "bob" .user 4 7).lookup "bob").map
      FbEntry.credits) = some (10 + 4) ∧
    (((refundCreditsFallback fbSeeded "bob" .admin 4 7).lookup "bob").map
      FbEntry.credits) = some 999999 :=
  fallback_first_touch_role_default fbSeeded "bob" 4 7
    (by decide) (by decide)

/-- System state refuting C2: user `u` has a durable balance of 1 (so the
admission check passes against the reachable durable store) and a drained
fallback entry of 0 credits; the durable store becomes unreachable between
the check and the debit. -/
def stC2 : SysState :=
  ⟨⟨[⟨"u", 1, 0⟩], [], [], []⟩, [("u", ⟨0, 0, .user⟩)], ⟨[], 1⟩⟩

/-- Counterexample to C2: with the admission check served by the durable
store and the debit call failing over to a fallback entry with a balance of
0, the handler still answers `ok` and stores the pending job, while the
durable transaction log stays empty and the fallback balance stays 0 — a
standard-role job whose debit failed on every path exists. -/
theorem job_without_committed_debit :
    (createJobHandler stC2 ⟨"u", .user⟩ "f.jpg" none true false 1).1 =
      .ok ⟨1, "u", .user, "f.jpg", none, .pending, none, 1, 1⟩ ∧
    ((createJobHandler stC2 ⟨"u", .user⟩ "f.jpg" none true false 1).2.jobs.jobs.lookup
      1).map Job.status = some .pending ∧
    (createJobHandler stC2 ⟨"u", .user⟩ "f.jpg" none true false 1).2.db.transactions
      = [] ∧
    (((createJobHandler stC2 ⟨"u", .user⟩ "f.jpg" none true false 1).2.fb.lookup
      "u").map FbEntry.credits) = some 0 := by
  exact ⟨by decide, by decide, by decide, by decide⟩

/-- C2 amended: for a standard-role user the job record is only ever
returned after the admission check has succeeded — but the job is created
before the debit, which is attempted afterwards with all failures
swallowed, so a committed debit is not guaranteed (see the
counterexample). -/
theorem job_creation_only_after_admission_check
    (st : SysState) (u : AuthUser) (fileId : String)
    (params : Option String) (cUp dUp : Bool) (now : Nat) (j : Job)
    (hrole : u.role = .user)
    (hok : (createJobHandler st u fileId params cUp dUp now).1 = .ok j) :
    (checkUserCredits cUp st.db st.fb u.username u.role 1 now).1 = true := by
  rw [hrole]
  simp only [createJobHandler, hrole] at hok
  rw [if_pos (show Role.user ≠ Role.admin from by decide)] at hok
  by_cases hc :
      (checkUserCredits cUp st.db st.fb u.username Role.user 1 now).1 = false
  · rw [if_pos hc] at hok
    exact absurd hok (by simp)
  · cases hb :
        (checkUserCredits cUp st.db st.fb u.username Role.user 1 now).1 with
    | false => exact absurd hb hc
    | true => rfl

/-- Witness for the amended C2: user `u1` with balance 1 is admitted, and
indeed its admission check evaluates to true. -/
theorem job_creation_only_after_admission_check_witness :
    (checkUserCredits true
      (⟨[⟨"u1", 1, 0⟩], [], [], []⟩ : DBState) fbSeeded "u1" .user 1 1).1
      = true :=
  job_creation_only_after_admission_check
    ⟨⟨[⟨"u1", 1, 0⟩], [], [], []⟩, fbSeeded, ⟨[], 1⟩⟩
    ⟨"u1", .user⟩ "f.jpg" none true true 1
    ⟨1, "u1", .user, "f.jpg", none, .pending, none, 1, 1⟩
    rfl (by decide)

/-- A job already in the terminal `completed` state. -/
def jobDone : Job :=
  ⟨1, "u1", .user, "f.jpg", none, .completed,
    some { outputFile := some "o" }, 3, 5⟩

/-- Counterexample to C3: `updateJobStatus` applied to a `completed` job
with the illegal target `processing` is not a no-op — it answers `true`,
moves the status back to `processing` and bumps `updated_at` from 5 to
9. -/
theorem terminal_transition_mutates :
    (updateJobStatus ⟨[(1, jobDone)], 2⟩ 1 .processing none 9).1 = true ∧
    ((updateJobStatus ⟨[(1, jobDone)], 2⟩ 1 .processing none
      9).2.jobs.lookup 1).map Job.status = some .processing ∧
    ((updateJobStatus ⟨[(1, jobDone)], 2⟩ 1 .processing none
      9).2.jobs.lookup 1).map Job.updated_at = some 9 := by
  exact ⟨by decide, by decide, by decide⟩

/-- C3 amended: neither job store validates transitions. For any stored
job and any requested status (including transitions out of a terminal
state) `updateJobStatus` reports success and rewrites the record with the
new status, a fresh `updated_at`, and the passed result when one is given
(keeping the old result otherwise); the alternate fallback store's
`updateJobStatus` behaves the same way. Only a missing job id leaves the
store untouched. -/
theorem updateJobStatus_applies_unconditionally
    (s : JobsStore) (am : AltJobsMap) (jobId : Nat) (st : JobStatus)
    (res : Option ProcessingResult) (now : Nat) (j ja : Job)
    (h : s.jobs.lookup jobId = some j)
    (h2 : am.lookup jobId = some ja) :
    (updateJobStatus s jobId st res now).1 = true ∧
    ((updateJobStatus s jobId st res now).2.jobs.lookup jobId) =
      some { j with
             status := st
             updated_at := now
             result := if res.isSome then res else j.result } ∧
    (updateJobStatusAlt am jobId st res now).1 =
      some { ja with
             status := st
             updated_at := now
             result := if res.isSome then res else ja.result } ∧
    ((updateJobStatusAlt am jobId st res now).2.lookup jobId) =
      some { ja with
             status := st
             updated_at := now
             result := if res.isSome then res else ja.result } := by
  refine ⟨?_, ?_, ?_, ?_⟩
  · simp only [updateJobStatus, h]
  · simp only [updateJobStatus, h]
    rw [lookup_map_update h (fun j2 =>
      ⟨j2.id, j2.user, j2.role, j2.file_id, j2.params, st,
        if res.isSome then res else j2.result, j2.created_at, now⟩)]
  · simp only [updateJobStatusAlt, h2]
  · simp only [updateJobStatusAlt, h2]
    rw [lookup_map_update h2 (fun _ =>
      ⟨ja.id, ja.user, ja.role, ja.file_id, ja.params, st,
        if res.isSome then res else ja.result, ja.created_at, now⟩)]

/-- Witness for the amended C3: the `completed` job is rewritten to
`processing` with `updated_at = 9` in both stores. -/
theorem updateJobStatus_applies_unconditionally_witness :
    (updateJobStatus ⟨[(2, jobDone)], 3⟩ 2 .processing none 9).1 = true ∧
    ((updateJobStatus ⟨[(2, jobDone)], 3⟩ 2 .processing none
      9).2.jobs.lookup 2) =
      some { jobDone with
             status := .processing
             updated_at := 9
             result := if (none : Option ProcessingResult).isSome then none
               else jobDone.result } ∧
    (updateJobStatusAlt [(2, jobDone)] 2 .processing none 9).1 =
      some { jobDone with
             status := .processing
             updated_at := 9
             result := if (none : Option ProcessingResult).isSome then none
               else jobDone.result } ∧
    ((updateJobStatusAlt [(2, jobDone)] 2 .processing none 9).2.lookup 2) =
      some { jobDone with
             status := .processing
             updated_at := 9
             result := if (none : Option ProcessingResult).isSome then none
               else jobDone.result } :=
  updateJobStatus_applies_unconditionally
    ⟨[(2, jobDone)], 3⟩ [(2, jobDone)] 2 .processing none 9
    jobDone jobDone (by decide) (by decide)

/-- Scenario A run at the C5 failing input: the admin-role user `alice`
(username not literally `admin`, durable balance 999999) submits a job and
the transformation fails; all durable calls are reachable (history
recording is left off to keep the run minimal). -/
def scenarioA_final : SysState :=
  processJobAsync
    (createJobHandler ⟨⟨[⟨"alice", 999999, 0⟩], [], [], []⟩, fbSeeded,
        ⟨[], 1⟩⟩
      ⟨"alice", .admin⟩ "f.jpg" none true true 1).2
    1 false "boom" "out.jpg" true false 5 2

/-- C5 evaluated at its failing input: the job does end `failed` and no
debit is ever produced for the admin-role user, but because the executor
gates compensation on `job.user !== "admin"` (the username, not the role),
the user `alice` receives a refund she was never debited for: a `refund`
transaction referencing the job is appended and the balance grows from
999999 to 1000000, contradicting both the claim and the spec's
role-based compensation rule. -/
theorem admin_role_user_still_refunded :
    (findJobById scenarioA_final.jobs 1).map Job.status =
      some JobStatus.failed ∧
    scenarioA_final.db.transactions.countP
      (fun t => t.txType == TxType.deduct) = 0 ∧
    scenarioA_final.db.transactions.countP
      (fun t => t.jobId == some 1 && t.txType == TxType.refund) = 1 ∧
    (getUserCredits scenarioA_final.db "alice").map Account.credits =
      some 1000000 := by
  exact ⟨by decide, by decide, by decide, by decide⟩

/-- Counterexample to C6: the admin-role user `boss` has no row in the
durable store (which is reachable) and no entry in the seeded fallback map,
so the sufficient-credits check answers `false` even though the claim says
privileged users always pass. -/
theorem privileged_check_false_for_unknown_user :
    (checkUserCredits true ⟨[⟨"user1", 5, 0⟩], [], [], []⟩ fbSeeded
      "boss" .admin 1 0).1 = false := by
  decide

/-- C6 amended: with the durable store reachable and a row present, the
check is `true` for the admin role regardless of balance and compares the
live balance for the standard role; when the row is missing (or the store
is down) it falls through to `hasEnoughCreditsFallback`, which ignores the
caller's role and answers `false` for any user absent from the fallback
map — including privileged users. -/
theorem checkUserCredits_semantics
    (db : DBState) (m : FbMap) (u1 u2 : String) (acct : Account)
    (req : Int) (now : Nat)
    (h1 : getUserCredits db u1 = some acct)
    (h2 : getUserCredits db u2 = none)
    (h3 : (seedDefaultUsers m now).lookup u2 = none) :
    (checkUserCredits true db m u1 .admin req now).1 = true ∧
    ((checkUserCredits true db m u1 .user req now).1 = true ↔
      acct.credits ≥ req) ∧
    (checkUserCredits true db m u2 .admin req now).1 = false ∧
    (checkUserCredits false db m u2 .admin req now).1 = false ∧
    (checkUserCredits true db m u2 .user req now).1 = false := by
  refine ⟨?_, ?_, ?_, ?_, ?_⟩
  · simp [checkUserCredits, h1]
  · simp [checkUserCredits, h1]
  · simp only [checkUserCredits, h2, hasEnoughCreditsFallback, h3]
    simp
  · simp only [checkUserCredits, hasEnoughCreditsFallback, h3]
    simp
  · simp only [checkUserCredits, h2, hasEnoughCreditsFallback, h3]
    simp

/-- Witness for the amended C6: `a1` holds a durable row with 0 credits,
`boss` is absent from both stores. -/
theorem checkUserCredits_semantics_witness :
    (checkUserCredits true ⟨[⟨"a1", 0, 0⟩], [], [], []⟩ fbSeeded
      "a1" .admin 1 0).1 = true ∧
    ((checkUserCredits true ⟨[⟨"a1", 0, 0⟩], [], [], []⟩ fbSeeded
      "a1" .user 1 0).1 = true ↔ (0 : Int) ≥ 1) ∧
    (checkUserCredits true ⟨[⟨"a1", 0, 0⟩], [], [], []⟩ fbSeeded
      "boss" .admin 1 0).1 = false ∧
    (checkUserCredits false ⟨[⟨"a1", 0, 0⟩], [], [], []⟩ fbSeeded
      "boss" .admin 1 0).1 = false ∧
    (checkUserCredits true ⟨[⟨"a1", 0, 0⟩], [], [], []⟩ fbSeeded
      "boss" .user 1 0).1 = false :=
  checkUserCredits_semantics ⟨[⟨"a1", 0, 0⟩], [], [], []⟩ fbSeeded
    "a1" "boss" ⟨"a1", 0, 0⟩ 1 0 (by decide) (by decide) (by decide)


/-- Two completed jobs of the same owner with the same `created_at`,
stored in creation order (ids ascend with insertion, as `nextJobId`
allocates them). -/
def tieStore : JobsStore :=
  ⟨[(1, ⟨1, "u1", .user, "f", none, .completed, none, 10, 10⟩),
    (2, ⟨2, "u1", .user, "f", none, .completed, none, 10, 10⟩)], 3⟩

/-- The two jobs of `tieStore`. -/
def jA : Job := ⟨1, "u1", .user, "f", none, .completed, none, 10, 10⟩

/-- Second job of `tieStore`, same `created_at` as `jA`, larger id. -/
def jB : Job := ⟨2, "u1", .user, "f", none, .completed, none, 10, 10⟩

/-- Counterexample to C8: the two jobs agree on the sort field
(`created_at = 10`), yet listing them sorted ascending by `created_at`
returns ids `[2, 1]` — the tie is not broken by ascending job id. -/
theorem tie_not_broken_by_ascending_id :
    jA.created_at = jB.created_at ∧ jA.id < jB.id ∧
    (listJobsHandler tieStore ⟨"u1", .user⟩ (some .completed) 1 10
      (fun j => j.created_at) 1).map (fun j => j.id) = [2, 1] := by
  exact ⟨by decide, by decide, by decide⟩

/-- Store for Scenario E: 25 completed jobs with distinct creation times
`1..25` plus two pending jobs, all owned by `u1`. -/
def scenarioE_store : JobsStore :=
  ⟨((List.range 25).map (fun k =>
      (k + 1, (⟨k + 1, "u1", .user, "f", none, .completed, none,
        k + 1, k + 1⟩ : Job)))) ++
    [(26, ⟨26, "u1", .user, "f", none, .pending, none, 26, 26⟩),
     (27, ⟨27, "u1", .user, "f", none, .pending, none, 27, 27⟩)], 28⟩

/-- C8 amended: with distinct creation times, Scenario E holds — filtering
25 completed jobs, sorting `-created_at` and taking page 2 of size 10
returns items 11-20 (ids 15 down to 6) in descending creation order. But
the controller comparator never returns 0 and reports each of two
equal-key jobs as strictly after the other (value 1 both ways under the
descending direction, -1 both ways under the ascending direction), so no
ascending-id tie-break exists and tie order is not fixed by the ids. -/
theorem pagination_scenario_and_no_id_tiebreak :
    (listJobsHandler scenarioE_store ⟨"u1", .user⟩ (some .completed) 2 10
      (fun j => j.created_at) (-1)).map (fun j => j.id) =
      [15, 14, 13, 12, 11, 10, 9, 8, 7, 6] ∧
    jsCompareBy (fun j => j.created_at) (-1) jA jB = 1 ∧
    jsCompareBy (fun j => j.created_at) (-1) jB jA = 1 ∧
    jsCompareBy (fun j => j.created_at) 1 jA jB = -1 ∧
    jsCompareBy (fun j => j.created_at) 1 jB jA = -1 := by
  exact ⟨by decide, by decide, by decide, by decide, by decide⟩


/-- Observable value of one system statistic. -/
def statValue (db : DBState) (name : String) : Option Rat :=
  (db.stats.find? (fun s => s.name == name)).map StatRow.value

theorem find?_statmap_self (stats : List StatRow) (n : String)
    (f : Rat → Rat) (now : Nat) :
    (stats.map (fun s =>
      if s.name == n then { s with value := f s.value, recordedAt := now }
      else s)).find? (fun s => s.name == n) =
      (stats.find? (fun s => s.name == n)).map
        (fun s => { s with value := f s.value, recordedAt := now }) := by
  induction stats with
  | nil => rfl
  | cons x t ih =>
    rw [List.map_cons]
    by_cases hc : (x.name == n) = true
    · rw [@List.find?_cons_of_pos StatRow (fun s => s.name == n) _ _
        (by simp [hc])]
      rw [@List.find?_cons_of_pos StatRow (fun s => s.name == n) x t hc]
      simp [hc]
    · rw [@List.find?_cons_of_neg StatRow (fun s => s.name == n) _ _
        (by simp [hc])]
      rw [@List.find?_cons_of_neg StatRow (fun s => s.name == n) x t hc]
      exact ih

theorem find?_statmap_other (stats : List StatRow) (n1 n2 : String)
    (hne : n1 ≠ n2) (f : Rat → Rat) (now : Nat) :
    (stats.map (fun s =>
      if s.name == n1 then { s with value := f s.value, recordedAt := now }
      else s)).find? (fun s => s.name == n2) =
      stats.find? (fun s => s.name == n2) := by
  induction stats with
  | nil => rfl
  | cons x t ih =>
    rw [List.map_cons]
    have hname : (if x.name == n1 then
        { x with value := f x.value, recordedAt := now }
      else x).name = x.name := by
      by_cases h1 : (x.name == n1) = true <;> simp [h1]
    by_cases hc : (x.name == n2) = true
    · rw [@List.find?_cons_of_pos StatRow (fun s => s.name == n2) _ _
        (by by_cases h1 : (x.name == n1) = true <;> simp [h1, hc])]
      rw [@List.find?_cons_of_pos StatRow (fun s => s.name == n2) x t hc]
      have h1 : (x.name == n1) = false := by
        have hx2 : x.name = n2 := by simpa using hc
        exact beq_eq_false_iff_ne.mpr (by rw [hx2]; exact (Ne.symm hne))
      simp [h1]
    · rw [@List.find?_cons_of_neg StatRow (fun s => s.name == n2) _ _
        (by by_cases h1 : (x.name == n1) = true <;> simp [h1, hc])]
      rw [@List.find?_cons_of_neg StatRow (fun s => s.name == n2) x t hc]
      exact ih

theorem upsert_value (stats : List StatRow) (n : String) (init : Rat)
    (f : Rat → Rat) (unit : String) (now : Nat) (x : Rat)
    (hinit : f x = init) :
    ((upsertStat stats n init f unit now).find?
      (fun s => s.name == n)).map StatRow.value =
      some (f (((stats.find? (fun s => s.name == n)).map
        StatRow.value).getD x)) := by
  unfold upsertStat
  cases hAny : stats.any (fun s => s.name == n) with
  | true =>
    rw [if_pos rfl]
    rw [find?_statmap_self]
    obtain ⟨s, hs, hps⟩ := List.any_eq_true.mp hAny
    have hsome : (stats.find? (fun s => s.name == n)).isSome = true :=
      List.find?_isSome.mpr ⟨s, hs, hps⟩
    obtain ⟨a, ha⟩ := Option.isSome_iff_exists.mp hsome
    rw [ha]
    simp
  | false =>
    rw [if_neg (by exact Bool.false_ne_true)]
    have hnone : stats.find? (fun s => s.name == n) = none := by
      rw [List.find?_eq_none]
      intro a hal hpa
      have h2 : stats.any (fun s => s.name == n) = true :=
        List.any_eq_true.mpr ⟨a, hal, hpa⟩
      rw [hAny] at h2
      exact Bool.false_ne_true h2
    rw [List.find?_append, hnone]
    simp [List.find?, hinit]

theorem upsert_find?_other (stats : List StatRow) (n1 n2 : String)
    (init : Rat) (f : Rat → Rat) (unit : String) (now : Nat)
    (hne : n1 ≠ n2) :
    (upsertStat stats n1 init f unit now).find? (fun s => s.name == n2) =
      stats.find? (fun s => s.name == n2) := by
  unfold upsertStat
  cases hAny : stats.any (fun s => s.name == n1) with
  | true =>
    rw [if_pos rfl]
    exact find?_statmap_other stats n1 n2 hne f now
  | false =>
    rw [if_neg (by exact Bool.false_ne_true)]
    rw [List.find?_append]
    have hx : ((⟨n1, init, unit, now⟩ : StatRow).name == n2) = false :=
      beq_eq_false_iff_ne.mpr hne
    simp [List.find?, hx]


/-- A durable store holding only a duration moving-average row. -/
def statsDb : DBState :=
  ⟨[], [], [], [⟨"avg_processing_time", 100, "ms", 3⟩]⟩

/-- Counterexample to C9: a successful outcome whose `processingTimeMs` is
0 (a falsy value in JS) appends its row and bumps the units-processed
counter, but the duration moving-average row is left byte-for-byte
unchanged (value 100, recorded at 3) although `success = true` — the
moving-average update is not tied exactly to `success = true`. -/
theorem success_zero_duration_average_not_updated :
    (⟨1, "u1", "f", none, some 0, true, none⟩ : HistoryData).success
      = true ∧
    (recordProcessingHistory statsDb
      ⟨1, "u1", "f", none, some 0, true, none⟩ 9).stats.find?
      (fun s => s.name == "avg_processing_time") =
      some ⟨"avg_processing_time", 100, "ms", 3⟩ ∧
    (recordProcessingHistory statsDb
      ⟨1, "u1", "f", none, none, true, none⟩ 9).stats.find?
      (fun s => s.name == "avg_processing_time") =
      some ⟨"avg_processing_time", 100, "ms", 3⟩ := by
  exact ⟨by decide, by decide, by decide⟩

/-- C9 amended: `record(outcome)` always appends exactly the outcome row;
when `success = false` nothing else in the store changes (stats, accounts
and the transaction log are untouched); when `success = true` the
units-processed counter is upserted (incremented, or created at 1), and the
duration moving-average is folded to `(old + t) / 2` exactly when a nonzero
duration `t` was supplied — with `success = true` but a missing or zero
duration the moving-average row is unchanged. All of this happens in the
one transaction this function models. -/
theorem record_history_effects
    (db : DBState) (data : HistoryData) (now : Nat) (t : Int) :
    (recordProcessingHistory db data now).history =
      db.history ++ [⟨data.jobId, data.user, data.inputFileId,
        data.outputFileId, data.processingTimeMs, data.success,
        data.errorMessage⟩] ∧
    (data.success = false →
      (recordProcessingHistory db data now).stats = db.stats ∧
      (recordProcessingHistory db data now).accounts = db.accounts ∧
      (recordProcessingHistory db data now).transactions =
        db.transactions) ∧
    (data.success = true →
      statValue (recordProcessingHistory db data now)
          "images_processed_today" =
        some ((statValue db "images_processed_today").getD 0 + 1)) ∧
    (data.success = true → data.processingTimeMs = some t → t ≠ 0 →
      statValue (recordProcessingHistory db data now)
          "avg_processing_time" =
        some (((statValue db "avg_processing_time").getD ((t : Int) : Rat) +
          ((t : Int) : Rat)) / 2)) ∧
    (data.success = true →
      data.processingTimeMs = none ∨ data.processingTimeMs = some 0 →
      (recordProcessingHistory db data now).stats.find?
          (fun s => s.name == "avg_processing_time") =
        db.stats.find? (fun s => s.name == "avg_processing_time")) := by
  refine ⟨?_, ?_, ?_, ?_, ?_⟩
  · unfold recordProcessingHistory
    cases hs : data.success
    · simp
    · simp only []
      rw [if_pos trivial]
      cases hpt : data.processingTimeMs with
      | none => rfl
      | some t2 =>
        dsimp only
        by_cases ht : t2 ≠ 0
        · rw [if_pos ht]
        · rw [if_neg ht]
  · intro hf
    unfold recordProcessingHistory
    rw [hf]
    exact ⟨rfl, rfl, rfl⟩
  · intro hsucc
    unfold recordProcessingHistory statValue
    rw [hsucc]
    simp only []
    rw [if_pos trivial]
    cases hpt : data.processingTimeMs with
    | none =>
      dsimp only
      rw [upsert_value _ _ _ _ _ _ 0 (by norm_num)]
    | some t2 =>
      dsimp only
      by_cases ht : t2 ≠ 0
      · rw [if_pos ht]
        dsimp only
        rw [upsert_find?_other _ _ _ _ _ _ _ (by decide)]
        rw [upsert_value _ _ _ _ _ _ 0 (by norm_num)]
      · rw [if_neg ht]
        dsimp only
        rw [upsert_value _ _ _ _ _ _ 0 (by norm_num)]
  · intro hsucc hpt ht
    unfold recordProcessingHistory statValue
    rw [hsucc, hpt]
    dsimp only
    rw [if_pos (Eq.refl true), if_pos ht]
    dsimp only
    rw [upsert_value _ _ _ _ _ _ ((t : Int) : Rat) (by ring)]
    rw [upsert_find?_other _ _ _ _ _ _ _ (by decide)]
  · intro hsucc hpt
    unfold recordProcessingHistory
    rw [hsucc]
    simp only []
    rw [if_pos trivial]
    cases hpt with
    | inl h =>
      rw [h]
      dsimp only
      rw [upsert_find?_other _ _ _ _ _ _ _ (by decide)]
    | inr h =>
      rw [h]
      dsimp only
      rw [if_neg (by norm_num)]
      dsimp only
      rw [upsert_find?_other _ _ _ _ _ _ _ (by decide)]

/-- Durable store with both statistics rows present. -/
def statsDb2 : DBState :=
  ⟨[], [], [],
   [⟨"images_processed_today", 2, "count", 3⟩,
    ⟨"avg_processing_time", 100, "ms", 3⟩]⟩

/-- Witness for the amended C9: a failed outcome leaves the stats
untouched; a successful outcome with duration 4 increments the counter and
folds the average. -/
theorem record_history_effects_witness :
    (recordProcessingHistory statsDb2
      ⟨2, "u1", "f", none, some 4, false, some "x"⟩ 9).stats =
      statsDb2.stats ∧
    statValue (recordProcessingHistory statsDb2
      ⟨1, "u1", "f", none, some 4, true, none⟩ 9)
      "images_processed_today" =
      some ((statValue statsDb2 "images_processed_today").getD 0 + 1) ∧
    statValue (recordProcessingHistory statsDb2
      ⟨1, "u1", "f", none, some 4, true, none⟩ 9)
      "avg_processing_time" =
      some (((statValue statsDb2 "avg_processing_time").getD
        (((4 : Int) : Rat)) + ((4 : Int) : Rat)) / 2) :=
  ⟨((record_history_effects statsDb2
      ⟨2, "u1", "f", none, some 4, false, some "x"⟩ 9 4).2.1 rfl).1,
   (record_history_effects statsDb2
      ⟨1, "u1", "f", none, some 4, true, none⟩ 9 4).2.2.1 rfl,
   (record_history_effects statsDb2
      ⟨1, "u1", "f", none, some 4, true, none⟩ 9 4).2.2.2.1 rfl rfl
     (by decide)⟩

end ImageProc
